import Mathlib

/-!
Shallow embedding of the CrossGPU core (tensor container, quantization
engine, device dispatch and fallback), translated from the Rust sources:

* `src/core/src/tensor.rs`       — `DType`, `Tensor` and its constructors
* `src/core/src/error.rs`        — `CoreError`
* `src/core/src/quantization.rs` — `QuantScheme`, `QuantParams`,
  `quantize_tensor`, `dequantize_tensor`
* `src/core/src/gpu.rs`          — `KernelType`, `Kernel`, `GpuTensor`,
  `DeviceType`
* `src/backends/*/src/lib.rs`    — each backend's `run_kernel`
* `src/examples/complete-workflow.rs` — `auto_detect_device`

Modelling conventions: machine floats (`f32`) are idealized as rationals
with exact arithmetic; `f32::round` is round-half-away-from-zero; the
saturating Rust casts (`as i32` on a float, `clamp`) are modelled
explicitly over `Int`.  A byte of a buffer is either a genuine `u8`
value or one of the four IEEE-754 bytes of a stored float, whose bit
pattern is abstracted (the code only ever reinterprets whole float
buffers with `bytemuck`, never individual float bytes), so buffer
lengths stay byte-exact.
-/

/-- Element data types (`enum DType`, src/core/src/tensor.rs). -/
inductive DType where
  | F32
  | F16
  | I8
  | I4
deriving DecidableEq, Repr

/-- One byte of a tensor buffer (Rust `Vec<u8>`).  `u8 n` is a plain byte;
`fp x i` is the `i`-th of the four IEEE-754 bytes of the float `x`,
with the concrete bit pattern abstracted. -/
inductive Byte where
  | u8 (val : Nat)
  | fp (val : ℚ) (idx : Fin 4)
deriving DecidableEq

/-- `bytemuck::cast_slice::<f32, u8>`: each float contributes its four
encoding bytes, in order. -/
def encodeF32 (xs : List ℚ) : List Byte :=
  xs.flatMap fun x => [Byte.fp x 0, Byte.fp x 1, Byte.fp x 2, Byte.fp x 3]

/-- `bytemuck::cast_slice::<u8, f32>` applied to a buffer written by
`encodeF32`: reads the float back out of each 4-byte group. -/
def decodeF32 : List Byte → List ℚ
  | Byte.fp x _ :: _ :: _ :: _ :: rest => x :: decodeF32 rest
  | _ => []

/-- `enum CoreError` (src/core/src/error.rs); payloads kept structurally,
message strings kept where the code formats them itself. -/
inductive CoreError where
  | ShapeMismatch (expected actual : List Nat)
  | InvalidDimension (msg : String)
  | GpuError (msg : String)
  | QuantizationError (msg : String)
  | ModelLoadError (msg : String)
  | IoError (msg : String)
  | SerializationError (msg : String)
  | Other (msg : String)
deriving DecidableEq

/-- `struct Tensor` (src/core/src/tensor.rs). -/
structure Tensor where
  shape : List Nat
  dtype : DType
  data : List Byte
deriving DecidableEq

/-- `DType::size_bytes` (src/core/src/tensor.rs, lines 118–128).  The
source returns `1` for `I4` with the comment "Packed, 2 elements per
byte". -/
def DType.size_bytes : DType → Nat
  | .F32 => 4
  | .F16 => 2
  | .I8 => 1
  | .I4 => 1

/-- Rust `{:?}` Debug formatting of a `Vec<usize>`, as interpolated into
the `InvalidDimension` messages. -/
def fmtVec (v : List Nat) : String :=
  "[" ++ String.intercalate ", " (v.map toString) ++ "]"

/-- `Tensor::new`: zero-filled buffer of `product(shape) * size_bytes`
bytes. -/
def Tensor.new (shape : List Nat) (dtype : DType) : Tensor :=
  { shape := shape, dtype := dtype,
    data := List.replicate (shape.prod * dtype.size_bytes) (Byte.u8 0) }

/-- `Tensor::from_data`: accepts the buffer iff its length equals
`product(shape) * size_bytes`. -/
def Tensor.from_data (shape : List Nat) (dtype : DType) (data : List Byte) :
    Except CoreError Tensor :=
  let expected_size := shape.prod * dtype.size_bytes
  if data.length ≠ expected_size then
    .error (.InvalidDimension ("Data size " ++ toString data.length ++
      " does not match expected size " ++ toString expected_size ++
      " for shape " ++ fmtVec shape))
  else
    .ok { shape := shape, dtype := dtype, data := data }

/-- `Tensor::from_f32`: requires one float per element, stores the
4-byte-per-float encoding, dtype `F32`. -/
def Tensor.from_f32 (shape : List Nat) (xs : List ℚ) :
    Except CoreError Tensor :=
  let expected_size := shape.prod
  if xs.length ≠ expected_size then
    .error (.InvalidDimension ("Data size " ++ toString xs.length ++
      " does not match expected size " ++ toString expected_size ++
      " for shape " ++ fmtVec shape))
  else
    .ok { shape := shape, dtype := .F32, data := encodeF32 xs }

/-- `Tensor::numel`. -/
def Tensor.numel (t : Tensor) : Nat := t.shape.prod

/-- `Tensor::ndim`. -/
def Tensor.ndim (t : Tensor) : Nat := t.shape.length

/-- `Tensor::reshape` (src/core/src/tensor.rs, lines 85–99): requires
equal element counts; the `ShapeMismatch` payload carries the two counts
as singleton vectors, not the shape vectors themselves. -/
def Tensor.reshape (t : Tensor) (new_shape : List Nat) :
    Except CoreError Tensor :=
  let old_size := t.numel
  let new_size := new_shape.prod
  if old_size ≠ new_size then
    .error (.ShapeMismatch [old_size] [new_size])
  else
    .ok { shape := new_shape, dtype := t.dtype, data := t.data }

/-- `Tensor::as_f32_slice`: reinterpret the byte buffer as floats;
rejects non-F32 tensors. -/
def Tensor.as_f32_slice (t : Tensor) : Except CoreError (List ℚ) :=
  if t.dtype ≠ .F32 then .error (.Other "Tensor is not F32 type")
  else .ok (decodeF32 t.data)

/-- `enum QuantScheme` (src/core/src/quantization.rs). -/
inductive QuantScheme where
  | Int8Symmetric
  | Int8Asymmetric
  | Int4
deriving DecidableEq

/-- `struct QuantParams` (src/core/src/quantization.rs).  The Rust
`zero_point` field is an `i32`; it is carried here as `ℤ`, every i32
addition/subtraction involving it is wrapped through `wrapI32` below,
and theorems that quantify over `zero_point` restrict it to the i32
value range `[-2^31, 2^31 - 1]`. -/
structure QuantParams where
  scale : ℚ
  zero_point : ℤ
  scheme : QuantScheme
deriving DecidableEq

/-- `QuantParams::int8_symmetric`. -/
def QuantParams.int8_symmetric (scale : ℚ) : QuantParams :=
  ⟨scale, 0, .Int8Symmetric⟩

/-- `QuantParams::int8_asymmetric`. -/
def QuantParams.int8_asymmetric (scale : ℚ) (zero_point : ℤ) : QuantParams :=
  ⟨scale, zero_point, .Int8Asymmetric⟩

/-- `QuantParams::int4`. -/
def QuantParams.int4 (scale : ℚ) : QuantParams :=
  ⟨scale, 0, .Int4⟩

/-- `f32::round`: round half away from zero. -/
def roundAway (q : ℚ) : ℤ := if 0 ≤ q then ⌊q + 1 / 2⌋ else ⌈q - 1 / 2⌉

/-- Rust's saturating float-to-`i32` conversion (`as i32`), acting on the
already-rounded value. -/
def i32cast (n : ℤ) : ℤ :=
  if n < -2147483648 then -2147483648
  else if 2147483647 < n then 2147483647
  else n

/-- `Ord::clamp` on integers: saturate into `[lo, hi]`. -/
def clampI (lo hi n : ℤ) : ℤ :=
  if n < lo then lo else if hi < n then hi else n

/-- Two's-complement wrap-around into the i32 value range: the result of
an overflowing i32 addition or subtraction as Rust compiles it in
release mode (a debug build panics at the same overflow instead). -/
def wrapI32 (n : ℤ) : ℤ := (n + 2147483648) % 4294967296 - 2147483648

/-- The byte stored for an `i8` value (`bytemuck` view of `i8` as `u8`):
its two's-complement representation. -/
def toI8byte (q : ℤ) : Byte := Byte.u8 (q % 256).toNat

/-- The `u8` value of a buffer byte (the abstract float bytes never occur
in the integer buffers the code reads byte-wise; they map to 0). -/
def byteVal : Byte → Nat
  | .u8 n => n % 256
  | .fp _ _ => 0

/-- Reinterpret a buffer byte as `i8` (`bytemuck::cast_slice::<u8, i8>`). -/
def byteToI8 (b : Byte) : ℤ :=
  if 128 ≤ byteVal b then (byteVal b : ℤ) - 256 else (byteVal b : ℤ)

/-- One element of the Int8 branch of `quantize_tensor`:
`(x / scale).round() as i32 + zero_point`, clamped to `[-128, 127]`.
The `+` is i32 addition, so its overflow wraps (release semantics,
`wrapI32`); a debug build would panic there instead. -/
def quantI8 (p : QuantParams) (x : ℚ) : ℤ :=
  clampI (-128) 127 (wrapI32 (i32cast (roundAway (x / p.scale)) + p.zero_point))

/-- One element of the Int4 branch of `quantize_tensor`:
`(x / scale).round() as i32`, clamped to `[-8, 7]`. -/
def quantI4 (scale : ℚ) (x : ℚ) : ℤ :=
  clampI (-8) 7 (i32cast (roundAway (x / scale)))

/-- `((q1 & 0x0F) << 4) | (q2 & 0x0F)` viewed as a `u8`: the low nibble of
`q1` in bits 4–7, the low nibble of `q2` in bits 0–3. -/
def packPair (q1 q2 : ℤ) : Byte :=
  Byte.u8 ((q1 % 16).toNat * 16 + (q2 % 16).toNat)

/-- The Int4 packing loop of `quantize_tensor`: `chunks(2)` over the
floats, a lone trailing element is paired with `q2 = 0`. -/
def packI4 (scale : ℚ) : List ℚ → List Byte
  | [] => []
  | [a] => [packPair (quantI4 scale a) 0]
  | a :: b :: rest =>
      packPair (quantI4 scale a) (quantI4 scale b) :: packI4 scale rest

/-- `quantize_tensor` (src/core/src/quantization.rs, lines 58–97). -/
def quantize_tensor (t : Tensor) (p : QuantParams) : Except CoreError Tensor :=
  if t.dtype ≠ .F32 then
    .error (.QuantizationError "Can only quantize F32 tensors")
  else do
    let data ← t.as_f32_slice
    match p.scheme with
    | .Int8Symmetric | .Int8Asymmetric =>
        Tensor.from_data t.shape .I8 ((data.map (quantI8 p)).map toI8byte)
    | .Int4 =>
        Tensor.from_data t.shape .I4 (packI4 p.scale data)

/-- Sign-extension of a nibble in the I4 branch of `dequantize_tensor`:
`if q & 0x08 != 0 { q | 0xF0 }`, i.e. subtract 16 when bit 3 is set. -/
def signExtend4 (n : Nat) : ℤ :=
  if n &&& 8 ≠ 0 then (n : ℤ) - 16 else (n : ℤ)

/-- `(byte >> 4) & 0x0F`. -/
def hiNibble (n : Nat) : Nat := (n >>> 4) &&& 15

/-- `byte & 0x0F`. -/
def loNibble (n : Nat) : Nat := n &&& 15

/-- `dequantize_tensor` (src/core/src/quantization.rs, lines 100–129).
In the I8 branch, `q as i32 - params.zero_point` is an i32 subtraction,
so its overflow wraps (release semantics, `wrapI32`). -/
def dequantize_tensor (t : Tensor) (p : QuantParams) :
    Except CoreError Tensor :=
  match t.dtype with
  | .I8 =>
      Tensor.from_f32 t.shape
        (t.data.map fun b =>
          ((wrapI32 (byteToI8 b - p.zero_point) : ℤ) : ℚ) * p.scale)
  | .I4 =>
      let vals := t.data.flatMap fun b =>
        [(signExtend4 (hiNibble (byteVal b)) : ℚ) * p.scale,
         (signExtend4 (loNibble (byteVal b)) : ℚ) * p.scale]
      Tensor.from_f32 t.shape (vals.take t.numel)
  | _ => .error (.QuantizationError "Can only dequantize I8 or I4 tensors")

/-- The byte-size rule exactly as §3 of the specification words it:
`product(shape) * byteWidth` for F32/F16/I8, `ceil(product(shape) / 2)`
for I4.  (Spec-side definition, kept for comparison with the source's
`Tensor::new` / `Tensor::from_data`.) -/
def spec_data_len (shape : List Nat) (dtype : DType) : Nat :=
  match dtype with
  | .I4 => (shape.prod + 1) / 2
  | _ => shape.prod * dtype.size_bytes

/-- The per-element Int8 formula exactly as the specification words it:
`q = round(x / scale) + zero_point`, clamped to `[-128, 127]` — with no
intermediate `i32` saturation.  (Spec-side definition, kept for
comparison with the source's `quantI8`.) -/
def spec_int8_q (x scale : ℚ) (zp : ℤ) : ℤ :=
  clampI (-128) 127 (roundAway (x / scale) + zp)

/-- `enum KernelType` (src/core/src/gpu.rs): the closed kernel catalogue. -/
inductive KernelType where
  | MatMul
  | LayerNorm
  | Softmax
  | Gelu
  | FusedGemmGelu
  | FusedGemmLayerNorm
  | Attention
deriving DecidableEq

/-- `struct Kernel` (src/core/src/gpu.rs). -/
structure Kernel where
  kernel_type : KernelType
  params : List ℚ

/-- `Kernel::new`. -/
def Kernel.new (kt : KernelType) : Kernel := ⟨kt, []⟩

/-- `Kernel::with_params`. -/
def Kernel.with_params (kt : KernelType) (params : List ℚ) : Kernel :=
  ⟨kt, params⟩

/-- `struct GpuTensor` (src/core/src/gpu.rs): shape plus an opaque,
backend-owned handle; the handle type is the parameter.  For the CPU
backend the handle is the wrapped `Tensor` itself. -/
structure GpuTensor (Handle : Type) where
  shape : List Nat
  handle : Handle

/-- `CpuDevice::run_matmul`: placeholder, returns `inputs[0].clone()`. -/
def CpuDevice.run_matmul (x : GpuTensor Tensor) :
    Except CoreError (GpuTensor Tensor) := .ok x

/-- `CpuDevice::run_layer_norm`: placeholder, returns `inputs[0].clone()`. -/
def CpuDevice.run_layer_norm (x : GpuTensor Tensor) (params : List ℚ) :
    Except CoreError (GpuTensor Tensor) :=
  let _ := params
  .ok x

/-- `CpuDevice::run_softmax`: placeholder, returns `inputs[0].clone()`. -/
def CpuDevice.run_softmax (x : GpuTensor Tensor) :
    Except CoreError (GpuTensor Tensor) := .ok x

/-- `CpuDevice::run_gelu`: placeholder, returns `inputs[0].clone()`. -/
def CpuDevice.run_gelu (x : GpuTensor Tensor) :
    Except CoreError (GpuTensor Tensor) := .ok x

/-- `CpuDevice::run_fused_gemm_gelu`: placeholder, returns
`inputs[0].clone()`. -/
def CpuDevice.run_fused_gemm_gelu (x : GpuTensor Tensor) :
    Except CoreError (GpuTensor Tensor) := .ok x

/-- `CpuDevice::run_fused_gemm_layer_norm`: placeholder, returns
`inputs[0].clone()`. -/
def CpuDevice.run_fused_gemm_layer_norm (x : GpuTensor Tensor)
    (params : List ℚ) : Except CoreError (GpuTensor Tensor) :=
  let _ := params
  .ok x

/-- `CpuDevice::run_attention`: placeholder, returns `inputs[0].clone()`. -/
def CpuDevice.run_attention (x : GpuTensor Tensor) :
    Except CoreError (GpuTensor Tensor) := .ok x

/-- `CpuDevice::run_kernel` (src/backends/cpu/src/lib.rs, lines 42–61):
guard against empty inputs, then an exhaustive match on the kernel type;
each helper receives `inputs[0]` (all further inputs are ignored by the
placeholder kernels). -/
def CpuDevice.run_kernel (kernel : Kernel)
    (inputs : List (GpuTensor Tensor)) : Except CoreError (GpuTensor Tensor) :=
  match inputs with
  | [] => .error (.GpuError "No input tensors")
  | x :: _ =>
    match kernel.kernel_type with
    | .MatMul => CpuDevice.run_matmul x
    | .LayerNorm => CpuDevice.run_layer_norm x kernel.params
    | .Softmax => CpuDevice.run_softmax x
    | .Gelu => CpuDevice.run_gelu x
    | .FusedGemmGelu => CpuDevice.run_fused_gemm_gelu x
    | .FusedGemmLayerNorm => CpuDevice.run_fused_gemm_layer_norm x kernel.params
    | .Attention => CpuDevice.run_attention x

/-- `CpuDevice::is_available`: "CPU is always available". -/
def CpuDevice.is_available : Bool := true

/-- `CpuDevice::device_name`. -/
def CpuDevice.device_name : String := "CPU"

/-- `WebGpuDevice::run_kernel` (src/backends/webgpu/src/lib.rs): empty
guard, then the placeholder returns `inputs[0].clone()` for every kernel
type. -/
def WebGpuDevice.run_kernel {Handle : Type} (kernel : Kernel)
    (inputs : List (GpuTensor Handle)) : Except CoreError (GpuTensor Handle) :=
  let _ := kernel
  match inputs with
  | [] => .error (.GpuError "No input tensors")
  | x :: _ => .ok x

/-- `VulkanDevice::run_kernel` (src/backends/vulkan/src/lib.rs): same
placeholder control flow. -/
def VulkanDevice.run_kernel {Handle : Type} (kernel : Kernel)
    (inputs : List (GpuTensor Handle)) : Except CoreError (GpuTensor Handle) :=
  let _ := kernel
  match inputs with
  | [] => .error (.GpuError "No input tensors")
  | x :: _ => .ok x

/-- `MetalDevice::run_kernel` (src/backends/metal/src/lib.rs): same
placeholder control flow. -/
def MetalDevice.run_kernel {Handle : Type} (kernel : Kernel)
    (inputs : List (GpuTensor Handle)) : Except CoreError (GpuTensor Handle) :=
  let _ := kernel
  match inputs with
  | [] => .error (.GpuError "No input tensors")
  | x :: _ => .ok x

/-- `Dx12Device::run_kernel` (src/backends/dx12/src/lib.rs): same
placeholder control flow. -/
def Dx12Device.run_kernel {Handle : Type} (kernel : Kernel)
    (inputs : List (GpuTensor Handle)) : Except CoreError (GpuTensor Handle) :=
  let _ := kernel
  match inputs with
  | [] => .error (.GpuError "No input tensors")
  | x :: _ => .ok x

/-- `enum DeviceType` (src/core/src/gpu.rs). -/
inductive DeviceType where
  | Cpu
  | WebGpu
  | Vulkan
  | Metal
  | Dx12
deriving DecidableEq

/-- An `Arc<dyn GpuDevice>` as `auto_detect_device` observes it: the two
trait methods the selection logic and its caller consult. -/
structure DynDevice where
  name : String
  available : Bool
deriving DecidableEq

/-- `CpuDevice::new()` viewed through the trait object:
`device_name() == "CPU"`, `is_available() == true`. -/
def cpuDevice : DynDevice := ⟨CpuDevice.device_name, CpuDevice.is_available⟩

/-- `auto_detect_device` (src/examples/complete-workflow.rs, lines
79–93).  `create` abstracts `create_device`, whose outcome depends on
the platform and GPU environment; `preferred` is
`DeviceType::default_for_platform()`, fixed per build target.  The
source tries the preferred device once, returns it if constructed and
available, and otherwise constructs `CpuDevice::new()` directly. -/
def auto_detect_device (create : DeviceType → Except CoreError DynDevice)
    (preferred : DeviceType) : Except CoreError DynDevice :=
  match create preferred with
  | .ok d => if d.available then .ok d else .ok cpuDevice
  | .error _ => .ok cpuDevice

/-- The same control flow as `auto_detect_device`, additionally logging
every device-construction attempt, in order. -/
def auto_detect_device_attempts
    (create : DeviceType → Except CoreError DynDevice)
    (preferred : DeviceType) : List DeviceType :=
  match create preferred with
  | .ok d => if d.available then [preferred] else [preferred, .Cpu]
  | .error _ => [preferred, .Cpu]

theorem decodeF32_nil : decodeF32 [] = [] := rfl

theorem decodeF32_cons (x : ℚ) (i : Fin 4) (b1 b2 b3 : Byte) (rest : List Byte) :
    decodeF32 (Byte.fp x i :: b1 :: b2 :: b3 :: rest) = x :: decodeF32 rest := rfl

theorem encodeF32_cons (x : ℚ) (xs : List ℚ) :
    encodeF32 (x :: xs) =
      Byte.fp x 0 :: Byte.fp x 1 :: Byte.fp x 2 :: Byte.fp x 3 :: encodeF32 xs := rfl

theorem decodeF32_encodeF32 (xs : List ℚ) : decodeF32 (encodeF32 xs) = xs := by
  induction xs with
  | nil => rfl
  | cons x xs ih => rw [encodeF32_cons, decodeF32_cons, ih]

theorem encodeF32_length (xs : List ℚ) : (encodeF32 xs).length = 4 * xs.length := by
  induction xs with
  | nil => rfl
  | cons x xs ih => rw [encodeF32_cons]; simp only [List.length_cons, ih]; omega

theorem abs_roundAway_sub (q : ℚ) : |(roundAway q : ℚ) - q| ≤ 1 / 2 := by
  unfold roundAway
  split
  · rw [abs_le]
    have h1 := Int.floor_le (q + 1 / 2)
    have h2 := Int.lt_floor_add_one (q + 1 / 2)
    constructor <;> push_cast at * <;> linarith
  · rw [abs_le]
    have h1 := Int.le_ceil (q - 1 / 2)
    have h2 := Int.ceil_lt_add_one (q - 1 / 2)
    constructor <;> push_cast at * <;> linarith

theorem i32cast_of_small {n : ℤ} (h1 : -2147483648 ≤ n) (h2 : n ≤ 2147483647) :
    i32cast n = n := by
  unfold i32cast; split <;> omega

theorem wrapI32_of_small {n : ℤ} (h1 : -2147483648 ≤ n)
    (h2 : n ≤ 2147483647) : wrapI32 n = n := by
  unfold wrapI32; omega

theorem clampI_of_mem {lo hi n : ℤ} (h1 : lo ≤ n) (h2 : n ≤ hi) :
    clampI lo hi n = n := by
  unfold clampI; split <;> omega

theorem clampI_le {lo hi n : ℤ} (h : lo ≤ hi) :
    lo ≤ clampI lo hi n ∧ clampI lo hi n ≤ hi := by
  unfold clampI; split <;> omega

theorem byteToI8_toI8byte {q : ℤ} (h1 : -128 ≤ q) (h2 : q ≤ 127) :
    byteToI8 (toI8byte q) = q := by
  simp only [byteToI8, toI8byte, byteVal]
  split <;> omega

theorem forall₂_map_self {α β : Type} (f : α → β) (R : β → α → Prop)
    (l : List α) (h : ∀ x ∈ l, R (f x) x) : List.Forall₂ R (l.map f) l := by
  induction l with
  | nil => exact List.Forall₂.nil
  | cons a l ih =>
      exact List.Forall₂.cons (h a (List.mem_cons_self a l))
        (ih fun x hx => h x (List.mem_cons_of_mem a hx))

theorem from_f32_eq_ok {shape : List Nat} {xs : List ℚ} {t : Tensor} :
    Tensor.from_f32 shape xs = .ok t ↔
      xs.length = shape.prod ∧ t = ⟨shape, .F32, encodeF32 xs⟩ := by
  unfold Tensor.from_f32
  dsimp only
  split
  · simp_all
  · simp_all [eq_comm]

theorem quantize_int8_eq {shape : List Nat} {xs : List ℚ} {p : QuantParams}
    (hs : p.scheme = .Int8Symmetric ∨ p.scheme = .Int8Asymmetric)
    (hlen : xs.length = shape.prod) :
    quantize_tensor ⟨shape, .F32, encodeF32 xs⟩ p =
      .ok ⟨shape, .I8, (xs.map (quantI8 p)).map toI8byte⟩ := by
  obtain ⟨s, z, sch⟩ := p
  unfold quantize_tensor Tensor.as_f32_slice Tensor.from_data
  rcases hs with h | h <;> cases h <;>
    simp [Except.bind, decodeF32_encodeF32, DType.size_bytes, hlen, Bind.bind]

theorem dequantize_int8_eq {shape : List Nat} {bytes : List Byte}
    {p : QuantParams} (hlen : bytes.length = shape.prod) :
    dequantize_tensor ⟨shape, .I8, bytes⟩ p =
      .ok ⟨shape, .F32, encodeF32 (bytes.map fun b =>
        ((wrapI32 (byteToI8 b - p.zero_point) : ℤ) : ℚ) * p.scale)⟩ := by
  unfold dequantize_tensor Tensor.from_f32
  simp [hlen]

theorem quantize_int4_eq {xs : List ℚ} {p : QuantParams} (shape : List Nat)
    (hs : p.scheme = .Int4) :
    quantize_tensor ⟨shape, .F32, encodeF32 xs⟩ p =
      Tensor.from_data shape .I4 (packI4 p.scale xs) := by
  obtain ⟨s, z, sch⟩ := p
  cases hs
  unfold quantize_tensor Tensor.as_f32_slice
  simp [Except.bind, decodeF32_encodeF32, Bind.bind]

set_option maxRecDepth 4000 in
theorem hiNibble_mul_add {a b : Nat} (ha : a < 16) (hb : b < 16) :
    hiNibble (a * 16 + b) = a := by
  have h : ∀ n, n < 256 → hiNibble n = n / 16 := by decide
  rw [h _ (by omega)]; omega

set_option maxRecDepth 4000 in
theorem loNibble_mul_add {a b : Nat} (ha : a < 16) (hb : b < 16) :
    loNibble (a * 16 + b) = b := by
  have h : ∀ n, n < 256 → loNibble n = n % 16 := by decide
  rw [h _ (by omega)]; omega

theorem signExtend4_emod {q : ℤ} (h1 : -8 ≤ q) (h2 : q ≤ 7) :
    signExtend4 (q % 16).toNat = q := by
  have h : ∀ n, n < 16 → signExtend4 n = if 8 ≤ n then (n : ℤ) - 16 else n := by
    decide
  rw [h _ (by omega)]
  split <;> omega

theorem byteVal_packPair (q1 q2 : ℤ) :
    byteVal (packPair q1 q2) = (q1 % 16).toNat * 16 + (q2 % 16).toNat := by
  simp only [packPair, byteVal]
  omega

theorem length_flatMap_pair {α β : Type} (f g : α → β) (l : List α) :
    (l.flatMap fun b => [f b, g b]).length = 2 * l.length := by
  induction l with
  | nil => rfl
  | cons a l ih => simp only [List.flatMap_cons, List.length_append,
      List.length_cons, List.length_nil, ih, List.length_cons]; omega

theorem getD_flatMap_pair {α β : Type} (f g : α → β) (l : List α) (d : β)
    (d0 : α) (i : Nat) (h : i < 2 * l.length) :
    (l.flatMap fun b => [f b, g b]).getD i d =
      (if i % 2 = 0 then f else g) (l.getD (i / 2) d0) := by
  induction l generalizing i with
  | nil => simp at h
  | cons a l ih =>
    match i with
    | 0 => simp [List.flatMap_cons]
    | 1 => simp [List.flatMap_cons]
    | (i + 2) =>
      have hlen : i < 2 * l.length := by
        simp only [List.length_cons] at h; omega
      have e1 : (i + 2) % 2 = i % 2 := by omega
      have e2 : (i + 2) / 2 = i / 2 + 1 := by omega
      have estep : (l.flatMap fun b => [f b, g b]).getD i d =
          (if i % 2 = 0 then f else g) (l.getD (i / 2) d0) := ih i hlen
      simp only [List.flatMap_cons, List.cons_append, List.nil_append,
        List.getD_cons_succ, e1, e2, estep]

theorem getD_take : ∀ {β : Type} (l : List β) (n i : Nat) (d : β), i < n →
    (l.take n).getD i d = l.getD i d := by
  intro β l
  induction l with
  | nil => intro n i d _; simp
  | cons a l ih =>
    intro n i d h
    match n, i with
    | n + 1, 0 => simp
    | n + 1, i + 1 =>
      simp only [List.take_succ_cons, List.getD_cons_succ]
      exact ih n i d (by omega)

deriving instance DecidableEq for Except

theorem roundAway_intCast (n : ℤ) : roundAway (n : ℚ) = n := by
  unfold roundAway
  split
  · rw [show ((n : ℚ) + 1 / 2) = (n : ℚ) + (1 / 2 : ℚ) from rfl,
      Int.floor_int_add]
    norm_num
  · rw [show ((n : ℚ) - 1 / 2) = (-(1 / 2) : ℚ) + (n : ℚ) by ring,
      Int.ceil_add_int]
    norm_num

theorem quantI4_int {n : ℤ} (h1 : -8 ≤ n) (h2 : n ≤ 7) :
    quantI4 1 (n : ℚ) = n := by
  rw [quantI4, div_one, roundAway_intCast,
    i32cast_of_small (by omega) (by omega), clampI_of_mem h1 h2]

/-- C1.  The spec's byte-width rule and the code disagree on I4: the
code's `DType::size_bytes` returns 1 byte per element (despite its own
"packed" comment), so `Tensor::new` allocates `product(shape)` bytes for
an I4 tensor of `product(shape)` elements and `Tensor::from_data`
rejects the packed `ceil(product/2)`-byte buffer the claim describes,
while accepting a full `product(shape)`-byte one.  For F32 (and F16/I8)
the rule and the code agree.  Shown at shape `[3]`, dtype I4. -/
theorem c1_i4_byte_rule_code_divergence :
    (Tensor.new [3] .I4).data.length = 3 ∧
    spec_data_len [3] .I4 = 2 ∧
    Tensor.from_data [3] .I4 (List.replicate 2 (Byte.u8 0)) =
      .error (.InvalidDimension
        "Data size 2 does not match expected size 3 for shape [3]") ∧
    Tensor.from_data [3] .I4 (List.replicate 3 (Byte.u8 0)) =
      .ok ⟨[3], .I4, List.replicate 3 (Byte.u8 0)⟩ ∧
    (Tensor.new [2, 2] .F32).data.length = 16 ∧
    spec_data_len [2, 2] .F32 = 16 := by
  refine ⟨by decide, by decide, by decide, by decide, by decide, by decide⟩

/-- C2.  The Int4 branch of `quantize_tensor` packs the two floats of a
`[2]`-shaped F32 tensor into the single byte `(1 & 0xF) << 4 | (2 & 0xF)
= 0x12` exactly as the claim describes, but then hands that
`ceil(2/2) = 1`-byte buffer to `Tensor::from_data`, whose I4 size rule
demands `2 * 1` bytes — so quantization fails with `InvalidDimension`
instead of succeeding, for every F32 tensor with at least 2 elements. -/
theorem c2_int4_quantize_fails :
    packI4 1 [1, 2] = [Byte.u8 18] ∧
    quantize_tensor ⟨[2], .F32, encodeF32 [1, 2]⟩ (QuantParams.int4 1) =
      .error (.InvalidDimension
        "Data size 1 does not match expected size 2 for shape [2]") := by
  have e1 : quantI4 1 ((1 : ℤ) : ℚ) = 1 := quantI4_int (by decide) (by decide)
  have e2 : quantI4 1 ((2 : ℤ) : ℚ) = 2 := quantI4_int (by decide) (by decide)
  norm_num at e1 e2
  have hpack : packI4 1 [1, 2] = [Byte.u8 18] := by
    rw [show packI4 1 [1, 2] = [packPair (quantI4 1 1) (quantI4 1 2)] from rfl,
      e1, e2]
    decide
  refine ⟨hpack, ?_⟩
  rw [quantize_int4_eq [2] rfl]
  show Tensor.from_data [2] DType.I4 (packI4 1 [1, 2]) = _
  rw [hpack]
  decide

/-- C6.  `Tensor::reshape` succeeds exactly when the new shape's element
product equals `numel()`, returning a tensor with the same dtype and (a
copy of) the same byte buffer; otherwise it fails with `ShapeMismatch`
whose `expected`/`actual` fields are the singleton total-element counts,
not the shape vectors. -/
theorem c6_reshape_spec (t : Tensor) (s : List Nat) :
    (s.prod = t.numel →
      t.reshape s = .ok ⟨s, t.dtype, t.data⟩ ∧
      (Tensor.mk s t.dtype t.data).numel = t.numel) ∧
    (s.prod ≠ t.numel →
      t.reshape s = .error (.ShapeMismatch [t.numel] [s.prod])) := by
  constructor
  · intro h
    constructor
    · unfold Tensor.reshape
      simp [h]
    · simp [Tensor.numel, h]
  · intro h
    unfold Tensor.reshape
    simp [Ne.symm h]

/-- Witness for C6 at `t = Tensor::new([2,3], F32)`: reshape to `[3,2]`
succeeds with the same dtype and buffer, reshape to `[4]` fails with
`ShapeMismatch { expected: [6], actual: [4] }`. -/
theorem c6_reshape_spec_witness :
    (Tensor.new [2, 3] .F32).reshape [3, 2] =
      .ok ⟨[3, 2], .F32, (Tensor.new [2, 3] .F32).data⟩ ∧
    (Tensor.new [2, 3] .F32).reshape [4] =
      .error (.ShapeMismatch [6] [4]) :=
  ⟨((c6_reshape_spec (Tensor.new [2, 3] .F32) [3, 2]).1 (by decide)).1,
   (c6_reshape_spec (Tensor.new [2, 3] .F32) [4]).2 (by decide)⟩

/-- C7.  `quantize_tensor` rejects every non-F32 input with
`QuantizationError`, and `dequantize_tensor` rejects every input whose
dtype is neither I8 nor I4 with `QuantizationError`; in both cases the
function returns an error, never a tensor. -/
theorem c7_dtype_errors (t : Tensor) (p : QuantParams) :
    (t.dtype ≠ .F32 →
      quantize_tensor t p =
        .error (.QuantizationError "Can only quantize F32 tensors")) ∧
    (t.dtype ≠ .I8 → t.dtype ≠ .I4 →
      dequantize_tensor t p =
        .error (.QuantizationError "Can only dequantize I8 or I4 tensors")) := by
  constructor
  · intro h
    unfold quantize_tensor
    simp [h]
  · intro h8 h4
    unfold dequantize_tensor
    obtain ⟨sh, dt, da⟩ := t
    cases dt <;> simp_all

/-- Witness for C7: quantizing an I8 tensor and dequantizing an F16
tensor both fail with `QuantizationError`. -/
theorem c7_dtype_errors_witness :
    quantize_tensor (Tensor.new [2] .I8) (QuantParams.int8_symmetric 1) =
      .error (.QuantizationError "Can only quantize F32 tensors") ∧
    dequantize_tensor (Tensor.new [2] .F16) (QuantParams.int8_symmetric 1) =
      .error (.QuantizationError "Can only dequantize I8 or I4 tensors") :=
  ⟨(c7_dtype_errors (Tensor.new [2] .I8) (QuantParams.int8_symmetric 1)).1
      (by decide),
   (c7_dtype_errors (Tensor.new [2] .F16) (QuantParams.int8_symmetric 1)).2
      (by decide) (by decide)⟩

/-- C10.  `dequantize_tensor` never reads `QuantParams::scheme`: two
parameter values agreeing on `scale` and `zero_point` but carrying any
two schemes produce identical results on every tensor. -/
theorem c10_dequantize_scheme_independent (t : Tensor) (s : ℚ) (z : ℤ)
    (sch1 sch2 : QuantScheme) :
    dequantize_tensor t ⟨s, z, sch1⟩ = dequantize_tensor t ⟨s, z, sch2⟩ := by
  unfold dequantize_tensor
  obtain ⟨sh, dt, da⟩ := t
  cases dt <;> rfl

/-- C8.  On every backend, `run_kernel` given an empty input sequence
returns (never panics) the `GpuError "No input tensors"`; on the CPU
backend the subsequent dispatch on `kernel_type` is an exhaustive match
over the seven kernel types, every one of which has a handler that
succeeds (each placeholder returns `inputs[0]`), and the placeholder
GPU backends likewise succeed on non-empty input. -/
theorem c8_run_kernel_empty_and_dispatch (kernel : Kernel) (Handle : Type)
    (x : GpuTensor Handle) (rest : List (GpuTensor Handle))
    (xc : GpuTensor Tensor) (restc : List (GpuTensor Tensor)) :
    CpuDevice.run_kernel kernel [] = .error (.GpuError "No input tensors") ∧
    WebGpuDevice.run_kernel kernel ([] : List (GpuTensor Handle)) =
      .error (.GpuError "No input tensors") ∧
    VulkanDevice.run_kernel kernel ([] : List (GpuTensor Handle)) =
      .error (.GpuError "No input tensors") ∧
    MetalDevice.run_kernel kernel ([] : List (GpuTensor Handle)) =
      .error (.GpuError "No input tensors") ∧
    Dx12Device.run_kernel kernel ([] : List (GpuTensor Handle)) =
      .error (.GpuError "No input tensors") ∧
    CpuDevice.run_kernel kernel (xc :: restc) = .ok xc ∧
    WebGpuDevice.run_kernel kernel (x :: rest) = .ok x ∧
    VulkanDevice.run_kernel kernel (x :: rest) = .ok x ∧
    MetalDevice.run_kernel kernel (x :: rest) = .ok x ∧
    Dx12Device.run_kernel kernel (x :: rest) = .ok x := by
  obtain ⟨kt, params⟩ := kernel
  refine ⟨rfl, rfl, rfl, rfl, rfl, ?_, rfl, rfl, rfl, rfl⟩
  cases kt <;> rfl

/-- C9.  `auto_detect_device`: whenever constructing the
platform-preferred device fails, or it constructs but reports
unavailable, the result is the CPU device, whose `is_available()` is
`true`; the construction-attempt log shows exactly one fallback attempt
(the CPU device) immediately after the preferred device, with no retry
and no intermediate device. -/
theorem c9_auto_detect_fallback
    (create : DeviceType → Except CoreError DynDevice)
    (preferred : DeviceType)
    (h : (∃ e, create preferred = .error e) ∨
         (∃ d, create preferred = .ok d ∧ d.available = false)) :
    auto_detect_device create preferred = .ok cpuDevice ∧
    cpuDevice.available = true ∧
    auto_detect_device_attempts create preferred = [preferred, .Cpu] := by
  unfold auto_detect_device auto_detect_device_attempts
  rcases h with ⟨e, he⟩ | ⟨d, hd, hda⟩
  · rw [he]
    exact ⟨rfl, rfl, rfl⟩
  · rw [hd]
    simp [hda, cpuDevice, CpuDevice.is_available]

/-- Witness for C9: a Vulkan construction that fails with a `GpuError`
triggers the one-shot CPU fallback. -/
theorem c9_auto_detect_fallback_witness :
    auto_detect_device (fun _ => .error (.GpuError "no driver")) .Vulkan =
      .ok cpuDevice ∧
    cpuDevice.available = true ∧
    auto_detect_device_attempts (fun _ => .error (.GpuError "no driver"))
      .Vulkan = [.Vulkan, .Cpu] :=
  c9_auto_detect_fallback (fun _ => .error (.GpuError "no driver")) .Vulkan
    (Or.inl ⟨.GpuError "no driver", rfl⟩)

theorem round_mul_close {s x : ℚ} (hs : s ≠ 0) :
    |(roundAway (x / s) : ℚ) * s - x| ≤ |s| := by
  have h12 := abs_roundAway_sub (x / s)
  have key : (roundAway (x / s) : ℚ) * s - x =
      ((roundAway (x / s) : ℚ) - x / s) * s := by
    field_simp
  rw [key, abs_mul]
  have hnn : (0 : ℚ) ≤ |s| := abs_nonneg s
  nlinarith

theorem flatMap_map_pair {α β γ : Type} (g : α → β) (f1 f2 : β → γ)
    (l : List α) :
    ((l.map g).flatMap fun b => [f1 b, f2 b]) =
      l.flatMap fun a => [f1 (g a), f2 (g a)] := by
  induction l with
  | nil => rfl
  | cons a l ih => simp only [List.map_cons, List.flatMap_cons, ih]

theorem dequantize_i4_eq (shape : List Nat) (data : List Byte)
    (p : QuantParams) :
    dequantize_tensor ⟨shape, .I4, data⟩ p =
      Tensor.from_f32 shape ((data.flatMap fun b =>
        [(signExtend4 (hiNibble (byteVal b)) : ℚ) * p.scale,
         (signExtend4 (loNibble (byteVal b)) : ℚ) * p.scale]).take
        shape.prod) := rfl

/-- C4.  On an I4 tensor holding `bytes` (with at least as many nibbles
as declared elements, as every buffer the quantizer would produce has),
`dequantize_tensor` succeeds with an F32 tensor whose `i`-th float is the
sign-extended (subtract 16 when bit 3 is set) high nibble of byte `i/2`
for even `i` and low nibble for odd `i`, times `scale` — high nibble
first — and whose length is exactly the declared element count, so the
trailing padding nibble is discarded.  Boundary: the byte `0x87` under
`scale = 1` decodes to exactly `[-8, 7]`. -/
theorem c4_dequantize_i4_nibbles (shape : List Nat) (bytes : List Nat)
    (p : QuantParams) (h : shape.prod ≤ 2 * bytes.length) :
    (∃ d ys,
      dequantize_tensor ⟨shape, .I4, bytes.map Byte.u8⟩ p = .ok d ∧
      d.shape = shape ∧ d.dtype = .F32 ∧
      d.as_f32_slice = .ok ys ∧
      ys.length = shape.prod ∧
      (∀ i, i < shape.prod →
        ys.getD i 0 =
          (signExtend4 ((if i % 2 = 0 then hiNibble else loNibble)
              (byteVal (Byte.u8 (bytes.getD (i / 2) 0)))) : ℚ) * p.scale)) ∧
    dequantize_tensor ⟨[2], .I4, [Byte.u8 135]⟩ ⟨1, 0, .Int4⟩ =
      .ok ⟨[2], .F32, encodeF32 [-8, 7]⟩ := by
  constructor
  · rw [dequantize_i4_eq,
      flatMap_map_pair Byte.u8
        (fun b => (signExtend4 (hiNibble (byteVal b)) : ℚ) * p.scale)
        (fun b => (signExtend4 (loNibble (byteVal b)) : ℚ) * p.scale) bytes]
    set F : Nat → ℚ :=
      fun n => (signExtend4 (hiNibble (byteVal (Byte.u8 n))) : ℚ) * p.scale
      with hF
    set G : Nat → ℚ :=
      fun n => (signExtend4 (loNibble (byteVal (Byte.u8 n))) : ℚ) * p.scale
      with hG
    have hlenfm : (bytes.flatMap fun a => [F a, G a]).length =
        2 * bytes.length := length_flatMap_pair F G bytes
    have hlen : ((bytes.flatMap fun a => [F a, G a]).take shape.prod).length =
        shape.prod := by
      rw [List.length_take, hlenfm]
      omega
    refine ⟨⟨shape, .F32,
        encodeF32 ((bytes.flatMap fun a => [F a, G a]).take shape.prod)⟩,
      (bytes.flatMap fun a => [F a, G a]).take shape.prod,
      from_f32_eq_ok.mpr ⟨hlen, rfl⟩, rfl, rfl, ?_, hlen, ?_⟩
    · unfold Tensor.as_f32_slice
      simp [decodeF32_encodeF32]
    · intro i hi
      rw [getD_take _ _ _ _ hi,
        getD_flatMap_pair F G bytes 0 0 i (by omega)]
      split <;> rfl
  · have hb1 : signExtend4 (hiNibble (byteVal (Byte.u8 135))) = -8 := by decide
    have hb2 : signExtend4 (loNibble (byteVal (Byte.u8 135))) = 7 := by decide
    rw [dequantize_i4_eq]
    simp only [List.flatMap_cons, List.flatMap_nil, List.append_nil, hb1, hb2]
    norm_num [Tensor.from_f32]

/-- Witness for C4 at shape `[3]`, bytes `[0x87, 0x20]`, scale 1. -/
theorem c4_dequantize_i4_nibbles_witness :
    ([3] : List Nat).prod ≤ 2 * ([135, 32] : List Nat).length ∧
    ((∃ d ys,
      dequantize_tensor ⟨[3], .I4, ([135, 32] : List Nat).map Byte.u8⟩
          ⟨1, 0, .Int4⟩ = .ok d ∧
      d.shape = [3] ∧ d.dtype = .F32 ∧
      d.as_f32_slice = .ok ys ∧
      ys.length = ([3] : List Nat).prod ∧
      (∀ i, i < ([3] : List Nat).prod →
        ys.getD i 0 =
          (signExtend4 ((if i % 2 = 0 then hiNibble else loNibble)
              (byteVal (Byte.u8 (([135, 32] : List Nat).getD (i / 2) 0)))) : ℚ) *
            (QuantParams.mk 1 0 .Int4).scale)) ∧
    dequantize_tensor ⟨[2], .I4, [Byte.u8 135]⟩ ⟨1, 0, .Int4⟩ =
      .ok ⟨[2], .F32, encodeF32 [-8, 7]⟩) :=
  ⟨by decide, c4_dequantize_i4_nibbles [3] [135, 32] ⟨1, 0, .Int4⟩ (by decide)⟩

theorem roundAway_div_one (x : ℚ) : roundAway (x / 1) = roundAway x := by
  rw [div_one]

/-- C5 counterexample.  The claim's formula
`clamp(round(x/scale) + zero_point, -128, 127)` omits the saturating
`as i32` conversion the code performs between the rounding and the
addition.  At `x = 2^31` (exactly representable in f32), `scale = 1`,
`zero_point = -2^31`, the code saturates `round(x/scale)` to
`2^31 - 1`, adds the zero point and stores `-1` (byte `0xFF`), while
the claim's formula yields `0`. -/
theorem c5_int8_formula_counterexample :
    quantize_tensor ⟨[1], .F32, encodeF32 [2147483648]⟩
        (QuantParams.int8_asymmetric 1 (-2147483648)) =
      .ok ⟨[1], .I8, [Byte.u8 255]⟩ ∧
    byteToI8 (Byte.u8 255) = -1 ∧
    spec_int8_q 2147483648 1 (-2147483648) = 0 ∧
    (-1 : ℤ) ≠ 0 := by
  have hcast : ((2147483648 : ℚ)) = ((2147483648 : ℤ) : ℚ) := by norm_num
  have hround : roundAway ((2147483648 : ℚ) / 1) = 2147483648 := by
    rw [roundAway_div_one, hcast, roundAway_intCast]
  refine ⟨?_, by decide, ?_, by decide⟩
  · rw [quantize_int8_eq (Or.inr rfl) (by decide)]
    have hq : quantI8 (QuantParams.int8_asymmetric 1 (-2147483648))
        2147483648 = -1 := by
      unfold quantI8 QuantParams.int8_asymmetric
      rw [show (QuantParams.mk 1 (-2147483648) .Int8Asymmetric).scale = 1
          from rfl,
        show (QuantParams.mk 1 (-2147483648) .Int8Asymmetric).zero_point =
          -2147483648 from rfl, hround]
      decide
    simp only [List.map_cons, List.map_nil, hq]
    decide
  · unfold spec_int8_q
    rw [hround]
    decide

/-- C5 (amended).  For every F32 tensor and Int8 `QuantParams`
(symmetric or asymmetric) whose `zero_point` is a valid i32,
`quantize_tensor` succeeds with an I8 tensor of the same shape and one
byte per element, whose `i`-th byte, reinterpreted as a signed 8-bit
integer, equals
`clamp(wrap_i32(sat_i32(round(x_i / scale)) + zero_point), -128, 127)`
— the claim's formula with the code's saturating float-to-`i32` cast
inserted before the zero-point addition, that addition performed as
wrapping (release-mode; a debug build panics on its overflow) i32
addition, rounding half away from zero and clamping saturating. -/
theorem c5_int8_quantize_amended (shape : List Nat) (xs : List ℚ)
    (t : Tensor) (p : QuantParams)
    (ht : Tensor.from_f32 shape xs = .ok t)
    (hs : p.scheme = .Int8Symmetric ∨ p.scheme = .Int8Asymmetric)
    (_hzp : -2147483648 ≤ p.zero_point ∧ p.zero_point ≤ 2147483647) :
    ∃ u, quantize_tensor t p = .ok u ∧
      u.shape = shape ∧ u.dtype = .I8 ∧ u.data.length = shape.prod ∧
      List.Forall₂ (fun b x => byteToI8 b =
        clampI (-128) 127
          (wrapI32 (i32cast (roundAway (x / p.scale)) + p.zero_point)))
        u.data xs := by
  obtain ⟨hlen, hteq⟩ := from_f32_eq_ok.mp ht
  subst hteq
  refine ⟨⟨shape, .I8, (xs.map (quantI8 p)).map toI8byte⟩,
    quantize_int8_eq hs hlen, rfl, rfl, by simp [hlen], ?_⟩
  rw [List.map_map]
  refine forall₂_map_self _ _ _ fun x _ => ?_
  show byteToI8 (toI8byte (quantI8 p x)) = _
  have hb := @clampI_le (-128) 127
    (wrapI32 (i32cast (roundAway (x / p.scale)) + p.zero_point)) (by decide)
  unfold quantI8
  exact byteToI8_toI8byte hb.1 hb.2

/-- Witness for C5 at shape `[1]`, data `[0]`, symmetric scale 1. -/
theorem c5_int8_quantize_amended_witness :
    Tensor.from_f32 [1] [0] = .ok ⟨[1], .F32, encodeF32 [0]⟩ ∧
    ((QuantParams.int8_symmetric 1).scheme = .Int8Symmetric ∨
     (QuantParams.int8_symmetric 1).scheme = .Int8Asymmetric) ∧
    (-2147483648 ≤ (QuantParams.int8_symmetric 1).zero_point ∧
      (QuantParams.int8_symmetric 1).zero_point ≤ 2147483647) ∧
    (∃ u, quantize_tensor ⟨[1], .F32, encodeF32 [0]⟩
          (QuantParams.int8_symmetric 1) = .ok u ∧
      u.shape = [1] ∧ u.dtype = .I8 ∧ u.data.length = ([1] : List Nat).prod ∧
      List.Forall₂ (fun b x => byteToI8 b =
        clampI (-128) 127
          (wrapI32
            (i32cast (roundAway (x / (QuantParams.int8_symmetric 1).scale)) +
              (QuantParams.int8_symmetric 1).zero_point)))
        u.data [0]) :=
  ⟨rfl, Or.inl rfl, by decide,
    c5_int8_quantize_amended [1] [0] ⟨[1], .F32, encodeF32 [0]⟩
      (QuantParams.int8_symmetric 1) rfl (Or.inl rfl) (by decide)⟩

/-- C3 counterexample.  The round-trip bound fails for values outside
the representable quantized range: quantizing `[1000.0]` with symmetric
`scale = 1` saturates to the code 127, which dequantizes back to `127`,
and `|127 - 1000| ≤ |scale| = 1` is false. -/
theorem c3_roundtrip_counterexample :
    quantize_tensor ⟨[1], .F32, encodeF32 [1000]⟩
        (QuantParams.int8_symmetric 1) = .ok ⟨[1], .I8, [Byte.u8 127]⟩ ∧
    dequantize_tensor ⟨[1], .I8, [Byte.u8 127]⟩
        (QuantParams.int8_symmetric 1) = .ok ⟨[1], .F32, encodeF32 [127]⟩ ∧
    ¬ |(127 : ℚ) - 1000| ≤ |(QuantParams.int8_symmetric 1).scale| := by
  have hcast : ((1000 : ℚ)) = ((1000 : ℤ) : ℚ) := by norm_num
  have hround : roundAway ((1000 : ℚ) / 1) = 1000 := by
    rw [roundAway_div_one, hcast, roundAway_intCast]
  refine ⟨?_, ?_, ?_⟩
  · rw [quantize_int8_eq (Or.inl rfl) (by decide)]
    have hq : quantI8 (QuantParams.int8_symmetric 1) 1000 = 127 := by
      unfold quantI8 QuantParams.int8_symmetric
      rw [show (QuantParams.mk 1 0 .Int8Symmetric).scale = 1 from rfl,
        show (QuantParams.mk 1 0 .Int8Symmetric).zero_point = 0 from rfl,
        hround]
      decide
    simp only [List.map_cons, List.map_nil, hq]
    decide
  · rw [dequantize_int8_eq (by decide)]
    have hv : ((wrapI32 (byteToI8 (Byte.u8 127) -
        (QuantParams.int8_symmetric 1).zero_point) : ℤ) : ℚ) *
        (QuantParams.int8_symmetric 1).scale = 127 := by
      norm_num [byteToI8, byteVal, wrapI32, QuantParams.int8_symmetric]
    simp only [List.map_cons, List.map_nil, hv]
  · norm_num [QuantParams.int8_symmetric]

/-- C3 (amended).  The round-trip bound holds once no element saturates:
for Int8Symmetric params with `zero_point = 0` and every element's
rounded code `round(x/scale)` already in `[-128, 127]`, quantize then
dequantize succeeds and reproduces each element within `|scale|` (the
counterexample shows clamping breaks the bound otherwise).  The Int4
analogue holds only for tensors with at most one element, because for
`numel ≥ 2` the Int4 quantizer itself fails `from_data`'s I4 size check
(the C2 code bug); when it succeeds the decoded length equals the
original numel exactly, with no extra element. -/
theorem c3_roundtrip_amended (shape : List Nat) (xs : List ℚ) (t : Tensor)
    (p : QuantParams) (ht : Tensor.from_f32 shape xs = .ok t)
    (hscale : 0 < p.scale) :
    (p.scheme = .Int8Symmetric → p.zero_point = 0 →
      (∀ x ∈ xs, -128 ≤ roundAway (x / p.scale) ∧
        roundAway (x / p.scale) ≤ 127) →
      ∃ u d ys, quantize_tensor t p = .ok u ∧
        dequantize_tensor u p = .ok d ∧
        d.as_f32_slice = .ok ys ∧ ys.length = xs.length ∧
        List.Forall₂ (fun y x => |y - x| ≤ |p.scale|) ys xs) ∧
    (p.scheme = .Int4 → xs.length ≤ 1 →
      (∀ x ∈ xs, -8 ≤ roundAway (x / p.scale) ∧
        roundAway (x / p.scale) ≤ 7) →
      ∃ u d ys, quantize_tensor t p = .ok u ∧
        dequantize_tensor u p = .ok d ∧
        d.as_f32_slice = .ok ys ∧ ys.length = xs.length ∧
        List.Forall₂ (fun y x => |y - x| ≤ |p.scale|) ys xs) := by
  obtain ⟨hlen, hteq⟩ := from_f32_eq_ok.mp ht
  subst hteq
  constructor
  · intro hsym hzp hrange
    have hlen2 : ((xs.map (quantI8 p)).map toI8byte).length = shape.prod := by
      simp [hlen]
    refine ⟨⟨shape, .I8, (xs.map (quantI8 p)).map toI8byte⟩,
      ⟨shape, .F32, encodeF32 (((xs.map (quantI8 p)).map toI8byte).map fun b =>
        ((wrapI32 (byteToI8 b - p.zero_point) : ℤ) : ℚ) * p.scale)⟩,
      ((xs.map (quantI8 p)).map toI8byte).map fun b =>
        ((wrapI32 (byteToI8 b - p.zero_point) : ℤ) : ℚ) * p.scale,
      quantize_int8_eq (Or.inl hsym) hlen, dequantize_int8_eq hlen2,
      ?_, by simp, ?_⟩
    · unfold Tensor.as_f32_slice
      simp [decodeF32_encodeF32]
    · rw [List.map_map, List.map_map]
      refine forall₂_map_self _ _ _ fun x hx => ?_
      obtain ⟨hr1, hr2⟩ := hrange x hx
      have hq : quantI8 p x = roundAway (x / p.scale) := by
        unfold quantI8
        rw [hzp, add_zero, i32cast_of_small (by omega) (by omega),
          wrapI32_of_small (by omega) (by omega), clampI_of_mem hr1 hr2]
      show |((wrapI32 (byteToI8 (toI8byte (quantI8 p x)) - p.zero_point) :
          ℤ) : ℚ) * p.scale - x| ≤ |p.scale|
      rw [hq, byteToI8_toI8byte hr1 hr2, hzp, sub_zero,
        wrapI32_of_small (by omega) (by omega)]
      exact round_mul_close (ne_of_gt hscale)
  · intro hi4 hlen1 hrange
    have hq4 := @quantize_int4_eq xs p shape hi4
    match xs, hlen, hlen1, hrange with
    | [], hlen, _, _ =>
      have hprod : shape.prod = 0 := by simpa using hlen.symm
      have hu : Tensor.from_data shape .I4 (packI4 p.scale []) =
          .ok ⟨shape, .I4, []⟩ := by
        unfold Tensor.from_data
        simp [DType.size_bytes, hprod, packI4]
      refine ⟨⟨shape, .I4, []⟩, ⟨shape, .F32, encodeF32 []⟩, [],
        by rw [hq4]; exact hu, ?_, ?_, by simp, List.Forall₂.nil⟩
      · rw [dequantize_i4_eq]
        exact from_f32_eq_ok.mpr ⟨by simpa using hlen, by simp⟩
      · unfold Tensor.as_f32_slice
        simp [decodeF32_encodeF32]
    | [a], hlen, _, hrange =>
      have hprod : shape.prod = 1 := by simpa using hlen.symm
      obtain ⟨hr1, hr2⟩ := hrange a (List.mem_singleton_self a)
      have hqb := @clampI_le (-8) 7 (i32cast (roundAway (a / p.scale)))
        (by decide)
      have hqr : quantI4 p.scale a = roundAway (a / p.scale) := by
        unfold quantI4
        rw [i32cast_of_small (by omega) (by omega), clampI_of_mem hr1 hr2]
      have hbv : byteVal (packPair (quantI4 p.scale a) 0) =
          (quantI4 p.scale a % 16).toNat * 16 + 0 := by
        rw [byteVal_packPair]
        norm_num
      have hhi : hiNibble ((quantI4 p.scale a % 16).toNat * 16 + 0) =
          (quantI4 p.scale a % 16).toNat :=
        hiNibble_mul_add (by omega) (by omega)
      have hlo : loNibble ((quantI4 p.scale a % 16).toNat * 16 + 0) = 0 :=
        loNibble_mul_add (by omega) (by omega)
      have hse : signExtend4 (quantI4 p.scale a % 16).toNat =
          quantI4 p.scale a := by
        have hb := @clampI_le (-8) 7 (i32cast (roundAway (a / p.scale)))
          (by decide)
        exact signExtend4_emod hb.1 hb.2
      have hu : Tensor.from_data shape .I4 (packI4 p.scale [a]) =
          .ok ⟨shape, .I4, [packPair (quantI4 p.scale a) 0]⟩ := by
        unfold Tensor.from_data
        simp [DType.size_bytes, hprod, packI4]
      refine ⟨⟨shape, .I4, [packPair (quantI4 p.scale a) 0]⟩,
        ⟨shape, .F32, encodeF32 [(quantI4 p.scale a : ℚ) * p.scale]⟩,
        [(quantI4 p.scale a : ℚ) * p.scale],
        by rw [hq4]; exact hu, ?_, ?_, by simp, ?_⟩
      · rw [dequantize_i4_eq]
        refine Eq.trans ?_ (from_f32_eq_ok.mpr ⟨by simpa using hlen, rfl⟩)
        congr 1
        simp only [List.flatMap_cons, List.flatMap_nil, List.append_nil,
          hbv, hhi, hlo, hse, hprod]
        norm_num [signExtend4]
      · unfold Tensor.as_f32_slice
        simp [decodeF32_encodeF32]
      · refine List.Forall₂.cons ?_ List.Forall₂.nil
        rw [hqr]
        exact round_mul_close (ne_of_gt hscale)
    | a :: b :: l, _, hlen1, _ => simp at hlen1

theorem c3_range_helper :
    ∀ x ∈ ([1, 2] : List ℚ),
      -128 ≤ roundAway (x / (QuantParams.int8_symmetric 1).scale) ∧
      roundAway (x / (QuantParams.int8_symmetric 1).scale) ≤ 127 := by
  have e1 : roundAway ((1 : ℚ) / 1) = 1 := by
    rw [roundAway_div_one, show (1 : ℚ) = ((1 : ℤ) : ℚ) by norm_num,
      roundAway_intCast]
  have e2 : roundAway ((2 : ℚ) / 1) = 2 := by
    rw [roundAway_div_one, show (2 : ℚ) = ((2 : ℤ) : ℚ) by norm_num,
      roundAway_intCast]
  intro x hx
  rcases List.mem_cons.mp hx with h | hx
  · subst h
    rw [show (QuantParams.int8_symmetric 1).scale = 1 from rfl, e1]
    omega
  rcases List.mem_cons.mp hx with h | hx
  · subst h
    rw [show (QuantParams.int8_symmetric 1).scale = 1 from rfl, e2]
    omega
  · simp at hx

/-- Witness for C3 at shape `[2]`, data `[1.0, 2.0]`, symmetric
`scale = 1`. -/
theorem c3_roundtrip_amended_witness :
    Tensor.from_f32 [2] [1, 2] = .ok ⟨[2], .F32, encodeF32 [1, 2]⟩ ∧
    (0 : ℚ) < (QuantParams.int8_symmetric 1).scale ∧
    (∃ u d ys,
      quantize_tensor ⟨[2], .F32, encodeF32 [1, 2]⟩
          (QuantParams.int8_symmetric 1) = .ok u ∧
      dequantize_tensor u (QuantParams.int8_symmetric 1) = .ok d ∧
      d.as_f32_slice = .ok ys ∧ ys.length = ([1, 2] : List ℚ).length ∧
      List.Forall₂
        (fun y x => |y - x| ≤ |(QuantParams.int8_symmetric 1).scale|)
        ys [1, 2]) :=
  ⟨rfl, by decide,
    (c3_roundtrip_amended [2] [1, 2] ⟨[2], .F32, encodeF32 [1, 2]⟩
        (QuantParams.int8_symmetric 1) rfl (by decide)).1
      rfl rfl c3_range_helper⟩
